import Mathlib

/-!
Verification development for the wisefood-client entity/collection proxy layer.

The Python source is shallowly embedded: Python dicts become ordered
association lists (`Dict`), JSON values become the inductive `J`, network
effects become an explicit list of `Call`s returned next to the result, and
Python exceptions become `Except Err`.  Remote responses are passed in as
explicit parameters, since the transport is an external collaborator.
-/

set_option maxHeartbeats 1000000

namespace Wisefood

/-- JSON-like values, the universe of Python values handled by the client. -/
inductive J where
  | null
  | bool (b : Bool)
  | num (n : Int)
  | str (s : String)
  | arr (xs : List J)
  | obj (kvs : List (String × J))

/-- Python truthiness of a JSON-like value. -/
def pyTruthy : J → Bool
  | .null => false
  | .bool b => b
  | .num n => n != 0
  | .str s => s != ""
  | .arr xs => !xs.isEmpty
  | .obj kvs => !kvs.isEmpty

mutual

/-- Python `repr` of a JSON-like value (single quotes written via `Char.ofNat 39`). -/
def pyRepr : J → String
  | .null => "None"
  | .bool true => "True"
  | .bool false => "False"
  | .num n => toString n
  | .str s => String.singleton (Char.ofNat 39) ++ s ++ String.singleton (Char.ofNat 39)
  | .arr xs => "[" ++ pyReprArr xs ++ "]"
  | .obj kvs => "\x7b" ++ pyReprObj kvs ++ "\x7d"

/-- Comma-joined reprs of the elements of a list. -/
def pyReprArr : List J → String
  | [] => ""
  | [x] => pyRepr x
  | x :: xs => pyRepr x ++ ", " ++ pyReprArr xs

/-- Comma-joined `key: value` reprs of the entries of a dict. -/
def pyReprObj : List (String × J) → String
  | [] => ""
  | [(k, v)] => pyRepr (J.str k) ++ ": " ++ pyRepr v
  | (k, v) :: kvs => pyRepr (J.str k) ++ ": " ++ pyRepr v ++ ", " ++ pyReprObj kvs

end

/-- Python `str` of a JSON-like value: identity on strings, `repr` otherwise. -/
def pyStr : J → String
  | .str s => s
  | j => pyRepr j

/-- A Python dict with string keys, kept in insertion order. -/
abbrev Dict := List (String × J)

/-- Model of `d[k]` as an optional lookup (first matching key). -/
def Dict.lookup : Dict → String → Option J
  | [], _ => none
  | (k, v) :: rest, key => if k = key then some v else Dict.lookup rest key

/-- Model of `k in d`. -/
def Dict.contains (d : Dict) (k : String) : Bool :=
  (Dict.lookup d k).isSome

/-- Model of `d[k] = v`: replace in place if the key exists, else append. -/
def Dict.insert : Dict → String → J → Dict
  | [], k, v => [(k, v)]
  | (k0, v0) :: rest, k, v =>
    if k0 = k then (k0, v) :: rest else (k0, v0) :: Dict.insert rest k v

/-- Python exceptions raised by the embedded code. -/
inductive Err where
  | binding
  | keyError (k : String)
  | badStep
  | openSlice
  | typeErr
  | attributeError
  | valueErr
deriving DecidableEq

/-- One outgoing network call, in the order it was issued. -/
inductive Call where
  | get (path : String)
  | getList (path : String) (limit offset : Int)
  | post (path : String) (body : Dict)
  | patch (path : String) (body : Dict)
  | delete (path : String)

/-- Model of `BaseEntity._extract_result`: unwrap the `result` envelope when present. -/
def extractResult (payload : J) : J :=
  match payload with
  | .obj kvs =>
    match Dict.lookup kvs "result" with
    | some r => r
    | none => .obj kvs
  | p => p

/-- View a JSON value as a dict.  The API returns objects here; a non-object
payload would leave the Python object in a state outside this dict-typed
model, so it is mapped to `none` (surfaced as `Err.typeErr` by callers). -/
def asDict : J → Option Dict
  | .obj kvs => some kvs
  | _ => none

/-- Model of `BaseEntity`: local data mapping, dirty-field set and sync flag.
The owning client is external; paths are built from the `ENDPOINT` string
passed to each operation. -/
structure BaseEntity where
  data : Dict
  dirty : List String
  sync : Bool

/-- Server-managed keys excluded from PATCH bodies in `BaseEntity.save`. -/
def managedKeys : List String := ["id", "creator", "created_at", "updated_at"]

/-- Model of `{k: self.data[k] for k in keys if k not in {...}}` over the dirty set:
builds the only-dirty PATCH body, raising `KeyError` on a dirty key that is
missing from `data`. -/
def dirtyBody (dirty : List String) (data : Dict) : Except Err Dict :=
  match dirty with
  | [] => .ok []
  | k :: ks =>
    if managedKeys.contains k then dirtyBody ks data
    else
      match Dict.lookup data k with
      | some v =>
        match dirtyBody ks data with
        | .ok rest => .ok ((k, v) :: rest)
        | .error e => .error e
      | none => .error (.keyError k)

/-- Model of `{k: v for k, v in self.data.items() if k not in {...}}`: the full-data
PATCH body with server-managed keys removed. -/
def fullBody (data : Dict) : Dict :=
  data.filter (fun kv => !(managedKeys.contains kv.1))

/-- Model of `BaseEntity.save`: build the body (only-dirty or full), skip the request
when the body is empty, else PATCH `{ENDPOINT}/{urn}`, replace `data` with
the unwrapped response and clear the dirty set. -/
def BaseEntity.save (endpoint : String) (e : BaseEntity) (onlyDirty : Bool)
    (resp : J) : Except Err BaseEntity × List Call :=
  let bodyE : Except Err Dict :=
    if onlyDirty && !e.dirty.isEmpty then dirtyBody e.dirty e.data
    else .ok (fullBody e.data)
  match bodyE with
  | .error er => (.error er, [])
  | .ok body =>
    if body.isEmpty then (.ok e, [])
    else
      match Dict.lookup e.data "urn" with
      | none => (.error (.keyError "urn"), [])
      | some u =>
        let c := Call.patch (endpoint ++ "/" ++ pyStr u) body
        match asDict (extractResult resp) with
        | some d => (.ok { e with data := d, dirty := [] }, [c])
        | none => (.error .typeErr, [c])

/-- Model of `BaseEntity.refresh`: GET `{ENDPOINT}/{urn}` and replace `data` with the
unwrapped response.  The dirty set is not touched. -/
def BaseEntity.refresh (endpoint : String) (e : BaseEntity) (resp : J) :
    Except Err BaseEntity × List Call :=
  match Dict.lookup e.data "urn" with
  | none => (.error (.keyError "urn"), [])
  | some u =>
    let c := Call.get (endpoint ++ "/" ++ pyStr u)
    match asDict (extractResult resp) with
    | some d => (.ok { e with data := d }, [c])
    | none => (.error .typeErr, [c])

/-- Model of `BaseEntity.delete`: DELETE `{ENDPOINT}/{urn}`; the local object is left
as it was. -/
def BaseEntity.delete (endpoint : String) (e : BaseEntity) :
    Except Err BaseEntity × List Call :=
  match Dict.lookup e.data "urn" with
  | none => (.error (.keyError "urn"), [])
  | some u => (.ok e, [Call.delete (endpoint ++ "/" ++ pyStr u)])

/-- Declared-field metadata carried by the `Field` descriptor. -/
structure Field where
  key : String
  default : J
  defaultFactory : Option J
  readOnly : Bool

/-- The lazy-entity test in `Field.__get__`:
`len(instance.data) == 1 and "urn" in instance.data`. -/
def isLazy (d : Dict) : Bool :=
  d.length == 1 && Dict.contains d "urn"

/-- The non-fetching tail of `Field.__get__`: return `data[key]` if present,
else materialize the default factory into `data`, else the static default. -/
def Field.resolve (f : Field) (e : BaseEntity) : J × BaseEntity :=
  match Dict.lookup e.data f.key with
  | some v => (v, e)
  | none =>
    match f.defaultFactory with
    | some v => (v, { e with data := Dict.insert e.data f.key v })
    | none => (f.default, e)

/-- Model of `Field.__get__`: auto-refresh a lazy entity when reading a non-`urn` key
that is absent, then resolve the read against the (possibly replaced) data. -/
def Field.get (endpoint : String) (f : Field) (e : BaseEntity) (resp : J) :
    Except Err (J × BaseEntity) × List Call :=
  if f.key != "urn" && !(Dict.contains e.data f.key) && isLazy e.data then
    match BaseEntity.refresh endpoint e resp with
    | (.ok e1, cs) => (.ok (Field.resolve f e1), cs)
    | (.error er, cs) => (.error er, cs)
  else (.ok (Field.resolve f e), [])

/-- Model of `HouseholdMemberProfile`: dynamic-attribute sub-resource proxy.
`hasClient` models `self._client is not None`; `memberId` models
`self._member_id` (with `none` / `some ""` both falsy, as in Python). -/
structure HouseholdMemberProfile where
  hasClient : Bool
  memberId : Option String
  data : Dict
  dirty : List String
  sync : Bool

/-- Python truthiness of the optional `_member_id` string. -/
def memberIdTruthy : Option String → Bool
  | some s => s != ""
  | none => false

/-- Model of `not client or not member_id`, negated: the profile is bound. -/
def isBound (p : HouseholdMemberProfile) : Bool :=
  p.hasClient && memberIdTruthy p.memberId

/-- The sub-resource path `members/{member_id}/profile`. -/
def profilePath (p : HouseholdMemberProfile) : String :=
  "members/" ++ p.memberId.getD "" ++ "/profile"

/-- Model of `{k: data[k] for k in dirty if k in data}`: the profile PATCH payload. -/
def profilePayload (dirty : List String) (data : Dict) : Dict :=
  dirty.filterMap (fun k => (Dict.lookup data k).map (fun v => (k, v)))

/-- Model of `HouseholdMemberProfile.save`: silently return when unbound or when the
dirty set is empty; else PATCH all dirty fields present in `data`, replace
`data` with the unwrapped response and clear the dirty set. -/
def profileSave (p : HouseholdMemberProfile) (resp : J) :
    Except Err HouseholdMemberProfile × List Call :=
  if !isBound p then (.ok p, [])
  else if p.dirty.isEmpty then (.ok p, [])
  else
    let payload := profilePayload p.dirty p.data
    let c := Call.patch (profilePath p) payload
    match asDict (extractResult resp) with
    | some d => (.ok { p with data := d, dirty := [] }, [c])
    | none => (.error .typeErr, [c])

/-- Set-insertion into the dirty set (`dirty.add(name)`). -/
def dirtyAdd (dirty : List String) (k : String) : List String :=
  if dirty.contains k then dirty else dirty ++ [k]

/-- Model of `HouseholdMemberProfile.__setattr__` for a non-underscore name: store the
value, mark it dirty, and save immediately when sync is enabled. -/
def profileSetattr (p : HouseholdMemberProfile) (name : String) (v : J)
    (resp : J) : Except Err HouseholdMemberProfile × List Call :=
  let p1 : HouseholdMemberProfile :=
    { p with data := Dict.insert p.data name v, dirty := dirtyAdd p.dirty name }
  if p1.sync then profileSave p1 resp else (.ok p1, [])

/-- Model of `HouseholdMemberProfile.refresh`: raise a binding error when unbound;
else GET the profile path, replace `data`, and clear the dirty set. -/
def profileRefresh (p : HouseholdMemberProfile) (resp : J) :
    Except Err HouseholdMemberProfile × List Call :=
  if !isBound p then (.error .binding, [])
  else
    let c := Call.get (profilePath p)
    match asDict (extractResult resp) with
    | some d => (.ok { p with data := d, dirty := [] }, [c])
    | none => (.error .typeErr, [c])

/-- Model of `HouseholdMemberProfile.delete`: raise a binding error when unbound;
else DELETE the profile path and clear the local data. -/
def profileDelete (p : HouseholdMemberProfile) :
    Except Err HouseholdMemberProfile × List Call :=
  if !isBound p then (.error .binding, [])
  else (.ok { p with data := [] }, [Call.delete (profilePath p)])

/-- A Python `slice` object: any of the three components may be `None`. -/
structure PySlice where
  start : Option Int
  stop : Option Int
  step : Option Int

/-- The idiom `x or d` on an optional int: `None` and `0` both fall back. -/
def pyOrInt (x : Option Int) (d : Int) : Int :=
  match x with
  | some v => if v = 0 then d else v
  | none => d

/-- Strip leading `/` characters (`str.lstrip("/")`) on a char list. -/
def lstripSlashes (cs : List Char) : List Char :=
  cs.dropWhile (fun c => c = '/')

/-- String wrapper for `lstripSlashes`. -/
def lstripSlashesStr (s : String) : String :=
  String.mk (lstripSlashes s.data)

/-- Model of `BaseCollectionProxy._parse_list_result`: accept a list of strings or a
list of dicts carrying `urn`; anything else is an error.  Only the first
element's type is inspected for the string case, as in the source. -/
def extractUrns : List J → Except Err (List J)
  | [] => .ok []
  | .obj kvs :: rest =>
    match Dict.lookup kvs "urn" with
    | some u =>
      match extractUrns rest with
      | .ok us => .ok (u :: us)
      | .error e => .error e
    | none => .error (.keyError "urn")
  | _ :: _ => .error .typeErr

/-- Normalize a list-endpoint response into the list of URN values. -/
def parseListResult (payload : J) : Except Err (List J) :=
  match payload with
  | .obj kvs =>
    match (Dict.lookup kvs "result").getD (J.obj kvs) with
    | .arr [] => .ok []
    | .arr (first :: rest) =>
      match first with
      | .str s => .ok (J.str s :: rest)
      | .obj fkvs => extractUrns (J.obj fkvs :: rest)
      | _ => .error .valueErr
    | _ => .error .valueErr
  | _ => .error .attributeError

/-- Model of `BaseCollectionProxy._get_entity(urn, lazy=True)`: build an
identifier-only entity without any network call, prepending the URN prefix
when missing. -/
def getEntityLazy (urnPrefix : String) (u : J) :
    Except Err BaseEntity :=
  match u with
  | .str s =>
    let s := lstripSlashesStr s
    let full := if s.startsWith urnPrefix then s else urnPrefix ++ s
    .ok { data := [("urn", J.str full)], dirty := [], sync := true }
  | _ => .error .attributeError

/-- Map `getEntityLazy` over a fetched page, stopping at the first error. -/
def lazyEntities (urnPrefix : String) : List J → Except Err (List BaseEntity)
  | [] => .ok []
  | u :: us =>
    match getEntityLazy urnPrefix u with
    | .ok e =>
      match lazyEntities urnPrefix us with
      | .ok es => .ok (e :: es)
      | .error er => .error er
    | .error er => .error er

/-- The slice branch of `BaseCollectionProxy.__getitem__`: reject non-1 steps
and open-ended slices before fetching, short-circuit empty ranges, else fetch
one page via limit/offset and return lazy entities. -/
def sliceGet (urnPrefix endpoint : String) (k : PySlice) (resp : J) :
    Except Err (List BaseEntity) × List Call :=
  let start := pyOrInt k.start 0
  let step := pyOrInt k.step 1
  if step ≠ 1 then (.error .badStep, [])
  else
    match k.stop with
    | none => (.error .openSlice, [])
    | some stop =>
      let limit := max 0 (stop - start)
      if limit = 0 then (.ok [], [])
      else
        let c := Call.getList endpoint limit start
        match parseListResult resp with
        | .error er => (.error er, [c])
        | .ok urns =>
          match lazyEntities urnPrefix urns with
          | .ok es => (.ok es, [c])
          | .error er => (.error er, [c])

/-- The concrete `APIError` subclass chosen for a failed response. -/
inductive ErrCls where
  | apiError
  | invalid
  | data
  | authn
  | authz
  | notFound
  | notAllowed
  | conflict
  | rateLimit
  | internal
  | badGateway
  | serviceUnavailable
  | gatewayTimeout
deriving DecidableEq

/-- Model of `_CODE_TO_EXCEPTION`: server error code to exception class. -/
def codeToException (code : String) : Option ErrCls :=
  if code = "request/invalid" then some .invalid
  else if code = "request/unprocessable" then some .data
  else if code = "auth/unauthorized" then some .authn
  else if code = "auth/forbidden" then some .authz
  else if code = "resource/not_found" then some .notFound
  else if code = "request/not_allowed" then some .notAllowed
  else if code = "resource/conflict" then some .conflict
  else if code = "quota/rate_limited" then some .rateLimit
  else if code = "server/internal" then some .internal
  else if code = "upstream/bad_gateway" then some .badGateway
  else if code = "upstream/unavailable" then some .serviceUnavailable
  else if code = "upstream/timeout" then some .gatewayTimeout
  else none

/-- Model of `_STATUS_TO_EXCEPTION`: HTTP status to exception class. -/
def statusToException (status : Int) : Option ErrCls :=
  if status = 400 then some .invalid
  else if status = 401 then some .authn
  else if status = 403 then some .authz
  else if status = 404 then some .notFound
  else if status = 405 then some .notAllowed
  else if status = 409 then some .conflict
  else if status = 422 then some .data
  else if status = 429 then some .rateLimit
  else if status = 500 then some .internal
  else if status = 502 then some .badGateway
  else if status = 503 then some .serviceUnavailable
  else if status = 504 then some .gatewayTimeout
  else none

/-- Model of `_pick_exception_class`: code mapping wins over status mapping, with a
generic fallback. -/
def pickExceptionClass (status : Int) (code : J) : ErrCls :=
  match code with
  | .str s =>
    if pyTruthy (.str s) then
      match codeToException s with
      | some cls => cls
      | none => (statusToException status).getD .apiError
    else (statusToException status).getD .apiError
  | _ => (statusToException status).getD .apiError

/-- The client-side `APIError` value: class, status, and the raw payload
fields carried on the exception. -/
structure ApiErr where
  cls : ErrCls
  statusCode : Int
  detail : J
  code : J
  title : J
  errors : J
  extra : Dict
  helpUrl : J
  responseBody : Option J

/-- Model of `APIError.__post_init__` message: `detail or title or f"HTTP {status}"`,
stringified as `str(exception)` would render it. -/
def apiErrMessage (e : ApiErr) : String :=
  pyStr (if pyTruthy e.detail then e.detail
         else if pyTruthy e.title then e.title
         else J.str ("HTTP " ++ toString e.statusCode))

/-- Iterate a Python value: lists yield elements, strings yield characters,
dicts yield their keys; other values are not iterable. -/
def pyIter : J → Except Err (List J)
  | .arr xs => .ok xs
  | .str s => .ok (s.data.map (fun c => J.str (String.singleton c)))
  | .obj kvs => .ok (kvs.map (fun kv => J.str kv.1))
  | _ => .error .typeErr

/-- One item of a FastAPI-style detail list: render `loc: msg` when a
location is present, else `str(msg)`. -/
def formatItem (item : J) : Except Err String :=
  match item with
  | .obj kvs =>
    let locRaw := (Dict.lookup kvs "loc").getD J.null
    let loc := if pyTruthy locRaw then locRaw else J.arr []
    match (if pyTruthy loc then (pyIter loc).map (fun ps => String.intercalate "." (ps.map pyStr)) else .ok "") with
    | .error er => .error er
    | .ok locStr =>
      let m1 := (Dict.lookup kvs "msg").getD J.null
      let m2 := (Dict.lookup kvs "message").getD J.null
      let msg := if pyTruthy m1 then m1 else if pyTruthy m2 then m2 else J.str (pyStr item)
      .ok (if locStr ≠ "" then locStr ++ ": " ++ pyStr msg else pyStr msg)
  | other => .ok (pyStr other)

/-- Format each item of a detail list, stopping at the first error. -/
def formatItems : List J → Except Err (List String)
  | [] => .ok []
  | item :: rest =>
    match formatItem item with
    | .ok s =>
      match formatItems rest with
      | .ok ss => .ok (s :: ss)
      | .error er => .error er
    | .error er => .error er

/-- Model of `_format_detail`: strings pass through, lists are rendered per item and
joined by `"; "`, anything else is `str()`-ed. -/
def formatDetail (detail : J) : Except Err String :=
  match detail with
  | .str s => .ok s
  | .arr items =>
    match formatItems items with
    | .ok parts => .ok (String.intercalate "; " parts)
    | .error er => .error er
  | d => .ok (pyStr d)

/-- The no-envelope fallback of `error_from_response`: special-case 422
bodies carrying a `detail` key as validation errors, else a generic
`APIError` with the stringified body. -/
def errorFromResponseFallback (statusCode : Int) (kvs : Dict) (helpUrl : J) :
    Except Err ApiErr :=
  if statusCode = 422 ∧ Dict.contains kvs "detail" then
    match formatDetail ((Dict.lookup kvs "detail").getD (J.str "")) with
    | .error er => .error er
    | .ok ds =>
      .ok { cls := .data, statusCode := statusCode, detail := J.str ds,
            code := J.null, title := J.null,
            errors := (Dict.lookup kvs "detail").getD J.null,
            extra := kvs.filter (fun kv => kv.1 ≠ "detail"),
            helpUrl := helpUrl, responseBody := some (J.obj kvs) }
  else
    .ok { cls := .apiError, statusCode := statusCode,
          detail := J.str (pyStr (J.obj kvs)), code := J.null,
          title := J.null, errors := J.null, extra := [],
          helpUrl := helpUrl, responseBody := some (J.obj kvs) }

/-- Model of `success is False`: identity test against the `False` literal. -/
def isFalseLiteral : Option J → Bool
  | some (J.bool false) => true
  | _ => false

/-- Model of `error_from_response`, taking the status code, the parsed JSON body
(`none` when the body is not JSON) and the raw response text. -/
def errorFromResponse (statusCode : Int) (body : Option J) (text : String) :
    Except Err ApiErr :=
  match body with
  | none =>
    .ok { cls := .apiError, statusCode := statusCode,
          detail := J.str (if text ≠ "" then text
                           else "HTTP " ++ toString statusCode),
          code := J.null, title := J.null, errors := J.null, extra := [],
          helpUrl := J.null, responseBody := none }
  | some b =>
    match b with
    | .obj kvs =>
      let success := Dict.lookup kvs "success"
      let errorBlock := Dict.lookup kvs "error"
      let helpUrl := (Dict.lookup kvs "help").getD J.null
      match errorBlock with
      | some (.obj eb) =>
        if isFalseLiteral success then
          let title := (Dict.lookup eb "title").getD J.null
          let detail := (Dict.lookup eb "detail").getD (J.str "")
          let code := (Dict.lookup eb "code").getD J.null
          let errors := (Dict.lookup eb "errors").getD J.null
          match (if pyTruthy errors then formatDetail errors else .ok "") with
          | .error er => .error er
          | .ok formatted =>
            let detail :=
              if statusCode = 422 ∧ formatted ≠ "" then
                if pyTruthy detail then J.str (pyStr detail ++ ": " ++ formatted)
                else J.str formatted
              else detail
            let extra := eb.filter (fun kv =>
              !(["title", "detail", "code", "errors"].contains kv.1))
            .ok { cls := pickExceptionClass statusCode code,
                  statusCode := statusCode, detail := detail, code := code,
                  title := title, errors := errors, extra := extra,
                  helpUrl := helpUrl, responseBody := some (J.obj kvs) }
        else
          errorFromResponseFallback statusCode kvs helpUrl
      | _ => errorFromResponseFallback statusCode kvs helpUrl
    | _ => .error .attributeError

/-- Model of `":" in s` on a char list. -/
def containsColon : List Char → Bool
  | [] => false
  | c :: cs => c == ':' || containsColon cs

/-- Model of `s.rsplit(":", 1)[1]`: the characters after the last colon. -/
def afterLastColon (cs : List Char) : List Char :=
  (cs.reverse.takeWhile (fun c => c ≠ ':')).reverse

/-- Model of `s.startswith(p)` on char lists. -/
def strStartsWith : List Char → List Char → Bool
  | _, [] => true
  | [], _ :: _ => false
  | c :: cs, d :: ds => c == d && strStartsWith cs ds

/-- Model of `BaseEntity.normalize_urn` on char lists: strip leading slashes, take the
segment after the last colon when one is present, else strip a matching
non-empty `URN_PREFIX`, else return the input unchanged. -/
def normalizeUrnL (urnPrefix : List Char) (s : List Char) : List Char :=
  let s := lstripSlashes s
  if containsColon s then afterLastColon s
  else if urnPrefix ≠ [] ∧ strStartsWith s urnPrefix then s.drop urnPrefix.length
  else s

/-- Model of `BaseEntity.normalize_urn`, wrapped over `String`. -/
def normalizeUrn (urnPrefix s : String) : String :=
  String.mk (normalizeUrnL urnPrefix.data s.data)

/-!  Claim theorems. -/

/-- Claim C1 (evaluation at the failing input): with an empty dirty set,
`save(only_dirty=True)` on an entity holding `urn` and `title` falls through
to the full-body branch and issues a PATCH of all non-managed fields, instead
of performing zero network calls as the claim and the method docstring state. -/
theorem c1_save_empty_dirty_issues_patch :
    (BaseEntity.save "articles"
        { data := [("urn", J.str "urn:article:one"), ("title", J.str "Old")],
          dirty := [], sync := false } true
        (J.obj [("result",
          J.obj [("urn", J.str "urn:article:one"), ("title", J.str "Old")])])).2
      = [Call.patch "articles/urn:article:one"
          [("urn", J.str "urn:article:one"), ("title", J.str "Old")]]
    ∧ ([Call.patch "articles/urn:article:one"
          [("urn", J.str "urn:article:one"), ("title", J.str "Old")]
        ] : List Call).length ≠ 0 :=
  ⟨rfl, by simp⟩

/-- Claim C5 (counterexample): a successful refresh replaces the data but
leaves the dirty set non-empty, contradicting "after a successful Refresh the
dirty set is empty". -/
theorem c5_refresh_leaves_dirty_set :
    (BaseEntity.refresh "articles"
        { data := [("urn", J.str "urn:article:one"), ("title", J.str "Edited")],
          dirty := ["title"], sync := false }
        (J.obj [("result",
          J.obj [("urn", J.str "urn:article:one"), ("title", J.str "Fresh")])])).1
      = Except.ok
          { data := [("urn", J.str "urn:article:one"), ("title", J.str "Fresh")],
            dirty := ["title"], sync := false }
    ∧ (["title"] : List String) ≠ [] :=
  ⟨rfl, by simp⟩

/-- Claim C5 (amended): refresh re-fetches by the current identifier and
replaces the local data wholesale, discarding unsaved edits to field values;
the dirty-field set, however, is left exactly as it was (it is not cleared). -/
theorem c5_refresh_replaces_data_keeps_dirty (ep : String) (e : BaseEntity)
    (u resp : J) (d : Dict)
    (hu : Dict.lookup e.data "urn" = some u)
    (hr : asDict (extractResult resp) = some d) :
    BaseEntity.refresh ep e resp
      = (Except.ok { e with data := d }, [Call.get (ep ++ "/" ++ pyStr u)])
    ∧ ({ e with data := d } : BaseEntity).dirty = e.dirty := by
  refine ⟨?_, rfl⟩
  simp only [BaseEntity.refresh, hu, hr]

/-- Claim C5 witness: the amended refresh theorem at a concrete entity. -/
theorem c5_refresh_replaces_data_keeps_dirty_witness :
    Dict.lookup [("urn", J.str "urn:article:one"), ("title", J.str "Edited")]
        "urn" = some (J.str "urn:article:one")
    ∧ asDict (extractResult (J.obj [("result",
        J.obj [("urn", J.str "urn:article:one"), ("title", J.str "Fresh")])]))
      = some [("urn", J.str "urn:article:one"), ("title", J.str "Fresh")]
    ∧ (BaseEntity.refresh "articles"
        { data := [("urn", J.str "urn:article:one"), ("title", J.str "Edited")],
          dirty := ["title"], sync := true }
        (J.obj [("result",
          J.obj [("urn", J.str "urn:article:one"), ("title", J.str "Fresh")])])
      = (Except.ok
          { data := [("urn", J.str "urn:article:one"), ("title", J.str "Fresh")],
            dirty := ["title"], sync := true },
         [Call.get ("articles" ++ "/" ++ pyStr (J.str "urn:article:one"))])) :=
  ⟨rfl, rfl,
    (c5_refresh_replaces_data_keeps_dirty "articles"
      { data := [("urn", J.str "urn:article:one"), ("title", J.str "Edited")],
        dirty := ["title"], sync := true }
      (J.str "urn:article:one")
      (J.obj [("result",
        J.obj [("urn", J.str "urn:article:one"), ("title", J.str "Fresh")])])
      [("urn", J.str "urn:article:one"), ("title", J.str "Fresh")]
      rfl rfl).1⟩

/-- Claim C6 (counterexample): after a successful delete the entity's local
data mapping is returned unchanged and non-empty, contradicting "after
Delete() succeeds the entity's local data mapping is cleared". -/
theorem c6_delete_keeps_local_data :
    BaseEntity.delete "articles"
        { data := [("urn", J.str "urn:article:one"), ("title", J.str "T")],
          dirty := [], sync := false }
      = (Except.ok
          { data := [("urn", J.str "urn:article:one"), ("title", J.str "T")],
            dirty := [], sync := false },
         [Call.delete "articles/urn:article:one"])
    ∧ ([("urn", J.str "urn:article:one"), ("title", J.str "T")] : Dict) ≠ [] :=
  ⟨rfl, by simp⟩

/-- Claim C6 (amended): delete issues a DELETE by the current identifier and
leaves the local entity — data, dirty set and sync flag — exactly as it was;
local data is not cleared. -/
theorem c6_delete_leaves_entity_unchanged (ep : String) (e : BaseEntity)
    (u : J) (hu : Dict.lookup e.data "urn" = some u) :
    BaseEntity.delete ep e
      = (Except.ok e, [Call.delete (ep ++ "/" ++ pyStr u)]) := by
  simp only [BaseEntity.delete, hu]

/-- Claim C6 witness: the amended delete theorem at a concrete entity. -/
theorem c6_delete_leaves_entity_unchanged_witness :
    Dict.lookup [("urn", J.str "urn:article:two")] "urn"
      = some (J.str "urn:article:two")
    ∧ BaseEntity.delete "articles"
        { data := [("urn", J.str "urn:article:two")], dirty := [], sync := true }
      = (Except.ok
          { data := [("urn", J.str "urn:article:two")], dirty := [], sync := true },
         [Call.delete ("articles" ++ "/" ++ pyStr (J.str "urn:article:two"))]) :=
  ⟨rfl,
    c6_delete_leaves_entity_unchanged "articles"
      { data := [("urn", J.str "urn:article:two")], dirty := [], sync := true }
      (J.str "urn:article:two") rfl⟩

/-- Claim C7 (counterexample): on an unbound profile, `save` returns the
profile unchanged with zero network calls and raises no binding error,
contradicting "every remote operation — save, refresh, and delete — fails
with a binding error rather than silently doing nothing". -/
theorem c7_unbound_save_is_silent :
    profileSave
        { hasClient := false, memberId := some "m1",
          data := [("dietary_groups", J.arr [J.str "vegan"])],
          dirty := ["dietary_groups"], sync := true } J.null
      = (Except.ok
          { hasClient := false, memberId := some "m1",
            data := [("dietary_groups", J.arr [J.str "vegan"])],
            dirty := ["dietary_groups"], sync := true }, [])
    ∧ (profileSave
        { hasClient := false, memberId := some "m1",
          data := [("dietary_groups", J.arr [J.str "vegan"])],
          dirty := ["dietary_groups"], sync := true } J.null).1
      ≠ Except.error Err.binding :=
  ⟨rfl, fun h => nomatch h⟩

/-- Claim C7 (amended): on an unbound profile, refresh and delete fail with a
binding error before any network call, while save silently returns the
profile unchanged with zero network calls. -/
theorem c7_unbound_operations (p : HouseholdMemberProfile) (resp resp2 : J)
    (hb : isBound p = false) :
    profileSave p resp = (Except.ok p, [])
    ∧ profileRefresh p resp2 = (Except.error Err.binding, [])
    ∧ profileDelete p = (Except.error Err.binding, []) := by
  simp [profileSave, profileRefresh, profileDelete, hb]

/-- Claim C7 witness: the amended unbound-operations theorem at a concrete
unbound profile. -/
theorem c7_unbound_operations_witness :
    isBound { hasClient := true, memberId := none, data := [],
              dirty := ["a"], sync := true } = false
    ∧ (profileSave
        { hasClient := true, memberId := none, data := [],
          dirty := ["a"], sync := true } J.null
        = (Except.ok
            { hasClient := true, memberId := none, data := [],
              dirty := ["a"], sync := true }, [])
      ∧ profileRefresh
          { hasClient := true, memberId := none, data := [],
            dirty := ["a"], sync := true } J.null
        = (Except.error Err.binding, [])
      ∧ profileDelete
          { hasClient := true, memberId := none, data := [],
            dirty := ["a"], sync := true }
        = (Except.error Err.binding, [])) :=
  ⟨rfl,
    c7_unbound_operations
      { hasClient := true, memberId := none, data := [],
        dirty := ["a"], sync := true } J.null J.null rfl⟩

/-- Adding a name to the dirty set never leaves it empty. -/
theorem dirtyAdd_isEmpty (dl : List String) (k : String) :
    (dirtyAdd dl k).isEmpty = false := by
  unfold dirtyAdd
  by_cases h : dl.contains k = true
  · rw [if_pos h]
    cases dl with
    | nil => simp [List.contains] at h
    | cons a l => rfl
  · rw [if_neg h]
    cases dl <;> rfl

/-- Claim C3 (counterexample): on a bound, sync-enabled profile that already
carries the un-synced dirty field `a`, writing the single attribute `b`
issues a PATCH whose body also contains `a` — not only the field newly
dirtied by this one write. -/
theorem c3_patch_includes_prior_dirty :
    (profileSetattr
        { hasClient := true, memberId := some "m1",
          data := [("a", J.str "x")], dirty := ["a"], sync := true }
        "b" (J.str "y") (J.obj [("result", J.obj [])])).2
      = [Call.patch "members/m1/profile"
          [("a", J.str "x"), ("b", J.str "y")]]
    ∧ Dict.contains [("a", J.str "x"), ("b", J.str "y")] "a" = true
    ∧ "a" ≠ "b" :=
  ⟨rfl, rfl, by decide⟩

/-- Claim C3 (amended): on a bound, sync-enabled profile, writing a single
attribute immediately issues a PATCH whose body contains every currently
dirty field that is present in the data — the newly written field together
with any dirty fields accumulated from prior un-synced writes — and clears
the dirty set on success. -/
theorem c3_sync_write_patches_all_dirty (p : HouseholdMemberProfile)
    (name : String) (v resp : J) (d : Dict)
    (hb : isBound p = true) (hs : p.sync = true)
    (hr : asDict (extractResult resp) = some d) :
    profileSetattr p name v resp
      = (Except.ok { p with data := d, dirty := [] },
         [Call.patch (profilePath p)
           (profilePayload (dirtyAdd p.dirty name)
             (Dict.insert p.data name v))]) := by
  have hb1 : isBound { p with data := Dict.insert p.data name v, dirty := dirtyAdd p.dirty name, sync := true } = true := hb
  have hp1 : profilePath { p with data := Dict.insert p.data name v, dirty := dirtyAdd p.dirty name, sync := true } = profilePath p := rfl
  simp only [profileSetattr, hs, if_true, profileSave, hb1, Bool.not_true,
    Bool.false_eq_true, if_false, dirtyAdd_isEmpty, hp1, hr]

/-- Claim C3 witness: the amended sync-write theorem at a concrete bound
profile with one stale dirty field. -/
theorem c3_sync_write_patches_all_dirty_witness :
    isBound
      { hasClient := true, memberId := some "m1",
        data := [("a", J.str "x")], dirty := ["a"], sync := true } = true
    ∧ asDict (extractResult (J.obj [("result", J.obj [])])) = some []
    ∧ profileSetattr
        { hasClient := true, memberId := some "m1",
          data := [("a", J.str "x")], dirty := ["a"], sync := true }
        "b" (J.str "y") (J.obj [("result", J.obj [])])
      = (Except.ok
          { hasClient := true, memberId := some "m1",
            data := [], dirty := [], sync := true },
         [Call.patch
           (profilePath
             { hasClient := true, memberId := some "m1",
               data := [("a", J.str "x")], dirty := ["a"], sync := true })
           (profilePayload (dirtyAdd ["a"] "b")
             (Dict.insert [("a", J.str "x")] "b" (J.str "y")))]) :=
  ⟨rfl, rfl,
    c3_sync_write_patches_all_dirty
      { hasClient := true, memberId := some "m1",
        data := [("a", J.str "x")], dirty := ["a"], sync := true }
      "b" (J.str "y") (J.obj [("result", J.obj [])]) [] rfl rfl rfl⟩

/-- Claim C8 (counterexample): a slice with an explicit stop and explicit
step `0` — a step other than 1 — does not fail: `key.step or 1` turns step 0
into 1 and a network fetch is issued. -/
theorem c8_step_zero_still_fetches :
    (sliceGet "urn:article:" "articles"
        { start := some 0, stop := some 2, step := some 0 }
        (J.obj [("result", J.arr [J.str "urn:article:a"])])).2
      = [Call.getList "articles" 2 0]
    ∧ (some 0 : Option Int) ≠ some 1 :=
  ⟨rfl, by simp⟩

/-- Claim C8 (amended): a slice with an explicit non-zero step other than 1
fails with a step error before any network call (step `None` and step `0`
are both treated as step 1 by the `or`-defaulting), and a slice with no stop
always fails before any network call. -/
theorem c8_bad_slices_fail_before_fetch (urnPrefix ep : String)
    (sl sl2 : PySlice) (resp resp2 : J) (s : Int)
    (h1 : sl.step = some s) (h2 : s ≠ 0) (h3 : s ≠ 1)
    (h4 : sl2.stop = none) :
    sliceGet urnPrefix ep sl resp = (Except.error Err.badStep, [])
    ∧ ∃ er, sliceGet urnPrefix ep sl2 resp2 = (Except.error er, []) := by
  constructor
  · simp only [sliceGet, h1, pyOrInt, if_neg h2]
    rw [if_pos h3]
  · by_cases hst : pyOrInt sl2.step 1 = 1
    · refine ⟨Err.openSlice, ?_⟩
      simp only [sliceGet, hst, ne_eq, not_true_eq_false, if_false, h4]
    · refine ⟨Err.badStep, ?_⟩
      simp only [sliceGet]
      rw [if_pos hst]

/-- Claim C8 witness: the amended slice theorem at a step-2 slice and an
open-ended slice. -/
theorem c8_bad_slices_fail_before_fetch_witness :
    (({ start := none, stop := some 5, step := some 2 } : PySlice).step
        = some 2)
    ∧ (2 : Int) ≠ 0 ∧ (2 : Int) ≠ 1
    ∧ (({ start := none, stop := none, step := none } : PySlice).stop = none)
    ∧ (sliceGet "urn:article:" "articles"
          { start := none, stop := some 5, step := some 2 } J.null
        = (Except.error Err.badStep, [])
      ∧ ∃ er, sliceGet "urn:article:" "articles"
          { start := none, stop := none, step := none } J.null
        = (Except.error er, [])) :=
  ⟨rfl, by decide, by decide, rfl,
    c8_bad_slices_fail_before_fetch "urn:article:" "articles"
      { start := none, stop := some 5, step := some 2 }
      { start := none, stop := none, step := none } J.null J.null 2
      rfl (by decide) (by decide) rfl⟩

/-- Claim C9: a 422 response whose JSON body is
`{"detail": [{"loc": ["body", "title"], "msg": "field required"}]}` is
classified as the validation error class (`DataError`), and its message is
exactly `"body.title: field required"` — the field-level error rendered as
`location: message` — and therefore contains that text. -/
theorem c9_validation_error_message :
    ∃ e, errorFromResponse 422
        (some (J.obj [("detail", J.arr [J.obj
          [("loc", J.arr [J.str "body", J.str "title"]),
           ("msg", J.str "field required")]])])) ""
        = Except.ok e
      ∧ e.cls = ErrCls.data
      ∧ apiErrMessage e = "body.title: field required" :=
  ⟨_, rfl, rfl, rfl⟩

/-- Looking up a key after an insert: the inserted key shadows, other keys
fall through. -/
theorem Dict.lookup_insert (d : Dict) (k k2 : String) (v : J) :
    Dict.lookup (Dict.insert d k v) k2
      = if k = k2 then some v else Dict.lookup d k2 := by
  induction d with
  | nil => simp [Dict.insert, Dict.lookup]
  | cons kv rest ih =>
    obtain ⟨k0, v0⟩ := kv
    by_cases h0 : k0 = k
    · subst h0
      by_cases h2 : k0 = k2 <;> simp [Dict.insert, Dict.lookup, h2]
    · by_cases h2 : k0 = k2
      · subst h2
        have hk2 : ¬ k = k0 := fun h => h0 h.symm
        simp [Dict.insert, Dict.lookup, h0, hk2]
      · simp [Dict.insert, Dict.lookup, h0, h2, ih]

/-- Membership after an insert. -/
theorem Dict.contains_insert (d : Dict) (k k2 : String) (v : J) :
    Dict.contains (Dict.insert d k v) k2
      = (decide (k = k2) || Dict.contains d k2) := by
  unfold Dict.contains
  rw [Dict.lookup_insert]
  by_cases h : k = k2 <;> simp [h]

/-- Inserting grows the dict by one entry exactly when the key is new. -/
theorem Dict.length_insert (d : Dict) (k : String) (v : J) :
    (Dict.insert d k v).length
      = if Dict.contains d k then d.length else d.length + 1 := by
  induction d with
  | nil => simp [Dict.insert, Dict.contains, Dict.lookup]
  | cons kv rest ih =>
    obtain ⟨k0, v0⟩ := kv
    by_cases h0 : k0 = k
    · have h1 : Dict.contains ((k0, v0) :: rest) k = true := by
        simp [Dict.contains, Dict.lookup, h0]
      rw [h1]
      simp [Dict.insert, h0]
    · have h1 : Dict.contains ((k0, v0) :: rest) k = Dict.contains rest k := by
        simp [Dict.contains, Dict.lookup, h0]
      rw [h1]
      simp only [Dict.insert, if_neg h0, List.length_cons, ih]
      by_cases hc : Dict.contains rest k = true <;> simp [hc]

/-- Inserting a non-`urn` key into a non-lazy data mapping cannot make it
lazy. -/
theorem isLazy_insert (d : Dict) (k : String) (v : J)
    (hk : k ≠ "urn") (hd : isLazy d = false) :
    isLazy (Dict.insert d k v) = false := by
  unfold isLazy at hd ⊢
  rw [Dict.contains_insert, Dict.length_insert]
  have hk2 : decide (k = "urn") = false := by simp [hk]
  rw [hk2, Bool.false_or]
  by_cases hc : Dict.contains d k = true
  · rw [if_pos hc]
    exact hd
  · rw [if_neg hc]
    cases hlen : d.length with
    | zero =>
      have hdnil : d = [] := List.length_eq_zero.mp hlen
      subst hdnil
      simp [Dict.contains, Dict.lookup]
    | succ n => simp

/-- Resolving a field read against non-lazy data keeps the data non-lazy. -/
theorem isLazy_resolve (f : Field) (e : BaseEntity)
    (hk : f.key ≠ "urn") (hl : isLazy e.data = false) :
    isLazy (Field.resolve f e).2.data = false := by
  unfold Field.resolve
  cases hlk : Dict.lookup e.data f.key with
  | some v => simpa using hl
  | none =>
    cases hf : f.defaultFactory with
    | some v => simpa using isLazy_insert e.data f.key v hk hl
    | none => simpa using hl

/-- A field read on a non-lazy entity performs zero network calls. -/
theorem nonlazy_field_get (ep : String) (f : Field) (e : BaseEntity)
    (resp : J) (hl : isLazy e.data = false) :
    Field.get ep f e resp = (Except.ok (Field.resolve f e), []) := by
  unfold Field.get
  rw [hl]
  simp

/-- Claim C2: reading a non-`urn` declared field of a lazy entity (data
holding only `urn`) issues exactly one GET by the identifier, replaces the
local data with the unwrapped response before resolving the read, and — as
long as the fetched payload is itself not identifier-only — every subsequent
read of a non-`urn` declared field performs zero network calls and keeps the
data non-lazy. -/
theorem c2_lazy_entity_single_fetch (ep : String) (u : J) (f : Field)
    (dl : List String) (sy : Bool) (resp : J) (d : Dict)
    (hk : f.key ≠ "urn")
    (hr : asDict (extractResult resp) = some d)
    (hd : isLazy d = false) :
    Field.get ep f { data := [("urn", u)], dirty := dl, sync := sy } resp
      = (Except.ok (Field.resolve f { data := d, dirty := dl, sync := sy }),
         [Call.get (ep ++ "/" ++ pyStr u)])
    ∧ isLazy (Field.resolve f { data := d, dirty := dl, sync := sy }).2.data
        = false
    ∧ ∀ (f2 : Field) (e2 : BaseEntity) (resp2 : J),
        f2.key ≠ "urn" → isLazy e2.data = false →
        Field.get ep f2 e2 resp2 = (Except.ok (Field.resolve f2 e2), [])
        ∧ isLazy (Field.resolve f2 e2).2.data = false := by
  refine ⟨?_, isLazy_resolve f _ hk hd, ?_⟩
  · have h1 : (f.key != "urn") = true := by simp [hk]
    have h2 : Dict.contains [("urn", u)] f.key = false := by
      unfold Dict.contains Dict.lookup
      rw [if_neg (Ne.symm hk)]
      rfl
    unfold Field.get
    rw [h1, h2]
    simp only [Bool.not_false, Bool.true_and, Bool.and_true]
    have h3 : isLazy [("urn", u)] = true := rfl
    rw [h3, if_pos rfl]
    unfold BaseEntity.refresh
    simp [Dict.lookup, hr]
  · intro f2 e2 resp2 hk2 hl2
    exact ⟨nonlazy_field_get ep f2 e2 resp2 hl2, isLazy_resolve f2 e2 hk2 hl2⟩

/-- Claim C2 witness: the lazy-fetch theorem at a concrete lazy article. -/
theorem c2_lazy_entity_single_fetch_witness :
    ((⟨"title", J.null, none, false⟩ : Field).key ≠ "urn")
    ∧ asDict (extractResult (J.obj [("result",
        J.obj [("urn", J.str "urn:article:one"), ("title", J.str "T")])]))
      = some [("urn", J.str "urn:article:one"), ("title", J.str "T")]
    ∧ isLazy [("urn", J.str "urn:article:one"), ("title", J.str "T")] = false
    ∧ (Field.get "articles" ⟨"title", J.null, none, false⟩
          { data := [("urn", J.str "urn:article:one")], dirty := [],
            sync := true }
          (J.obj [("result",
            J.obj [("urn", J.str "urn:article:one"), ("title", J.str "T")])])
        = (Except.ok (Field.resolve ⟨"title", J.null, none, false⟩
            { data := [("urn", J.str "urn:article:one"),
                       ("title", J.str "T")],
              dirty := [], sync := true }),
           [Call.get ("articles" ++ "/" ++ pyStr (J.str "urn:article:one"))])
      ∧ isLazy (Field.resolve (⟨"title", J.null, none, false⟩ : Field)
          { data := [("urn", J.str "urn:article:one"), ("title", J.str "T")],
            dirty := [], sync := true }).2.data = false
      ∧ ∀ (f2 : Field) (e2 : BaseEntity) (resp2 : J),
          f2.key ≠ "urn" → isLazy e2.data = false →
          Field.get "articles" f2 e2 resp2
            = (Except.ok (Field.resolve f2 e2), [])
          ∧ isLazy (Field.resolve f2 e2).2.data = false) :=
  ⟨by decide, rfl, rfl,
    c2_lazy_entity_single_fetch "articles" (J.str "urn:article:one")
      ⟨"title", J.null, none, false⟩ [] true
      (J.obj [("result",
        J.obj [("urn", J.str "urn:article:one"), ("title", J.str "T")])])
      [("urn", J.str "urn:article:one"), ("title", J.str "T")]
      (by decide) rfl rfl⟩

/-- When every dirty key is present in the data, the only-dirty body builds
successfully and maps exactly the unmanaged dirty keys to their data values. -/
theorem dirtyBody_spec (dirty : List String) (data : Dict)
    (h : ∀ k ∈ dirty, Dict.contains data k = true) :
    ∃ body, dirtyBody dirty data = Except.ok body
      ∧ ∀ k, Dict.lookup body k
          = if k ∈ dirty ∧ managedKeys.contains k = false
            then Dict.lookup data k else none := by
  induction dirty with
  | nil =>
    refine ⟨[], rfl, fun k => ?_⟩
    simp [Dict.lookup]
  | cons k0 ks ih =>
    have h0 : Dict.contains data k0 = true := h k0 (by simp)
    obtain ⟨v0, hv0⟩ : ∃ v, Dict.lookup data k0 = some v := by
      unfold Dict.contains at h0
      exact Option.isSome_iff_exists.mp h0
    obtain ⟨body, hbody, hform⟩ := ih (fun k hk => h k (by simp [hk]))
    by_cases hm : managedKeys.contains k0 = true
    · refine ⟨body, ?_, fun k => ?_⟩
      · unfold dirtyBody
        rw [if_pos hm]
        exact hbody
      · rw [hform k]
        by_cases hkk : k = k0
        · subst hkk
          have hc1 : ¬ (k ∈ ks ∧ managedKeys.contains k = false) := by
            rintro ⟨-, hf⟩
            rw [hm] at hf
            exact Bool.noConfusion hf
          have hc2 : ¬ (k ∈ k :: ks ∧ managedKeys.contains k = false) := by
            rintro ⟨-, hf⟩
            rw [hm] at hf
            exact Bool.noConfusion hf
          rw [if_neg hc1, if_neg hc2]
        · simp [List.mem_cons, hkk]
    · have hm0 : managedKeys.contains k0 = false := by
        simpa using hm
      refine ⟨(k0, v0) :: body, ?_, fun k => ?_⟩
      · unfold dirtyBody
        rw [if_neg hm, hv0, hbody]
      · by_cases hkk : k = k0
        · subst hkk
          have hnm : k ∉ managedKeys := by simpa using hm0
          simp [Dict.lookup, hnm, hv0]
        · have hkk2 : ¬ k0 = k := fun hx => hkk hx.symm
          simp only [Dict.lookup, if_neg hkk2, hform k, List.mem_cons]
          by_cases hmem : k ∈ ks <;> simp [hmem, hkk]

/-- Claim C4 (counterexample): with the non-empty dirty set `{"id"}` —
containing only a server-managed key — `save(only_dirty=True)` sends no
PATCH at all (the filtered body is empty), so it does not send "a PATCH body
equal to the dirty fields' current values". -/
theorem c4_all_managed_dirty_sends_nothing :
    BaseEntity.save "articles"
        { data := [("urn", J.str "urn:article:one"), ("id", J.str "5")],
          dirty := ["id"], sync := false } true J.null
      = (Except.ok
          { data := [("urn", J.str "urn:article:one"), ("id", J.str "5")],
            dirty := ["id"], sync := false }, [])
    ∧ (["id"] : List String) ≠ [] :=
  ⟨rfl, by simp⟩

/-- Claim C4 (amended): on an entity whose dirty set is non-empty, has all
its keys present in the data, and contains at least one non-server-managed
key, `save(only_dirty=True)` issues exactly one PATCH whose body maps each
unmanaged dirty key to its current data value and contains no other keys —
in particular none of the server-managed keys `id`, `creator`, `created_at`,
`updated_at`, even when they are dirty.  (When every dirty key is
server-managed the filtered body is empty and no request is issued.) -/
theorem c4_only_dirty_body_excludes_managed (ep : String) (e : BaseEntity)
    (resp u : J)
    (hne : e.dirty ≠ [])
    (hsub : ∀ k ∈ e.dirty, Dict.contains e.data k = true)
    (hurn : Dict.lookup e.data "urn" = some u)
    (hx : ∃ k, k ∈ e.dirty ∧ managedKeys.contains k = false) :
    ∃ body,
      (BaseEntity.save ep e true resp).2
        = [Call.patch (ep ++ "/" ++ pyStr u) body]
      ∧ (∀ k, Dict.lookup body k
          = if k ∈ e.dirty ∧ managedKeys.contains k = false
            then Dict.lookup e.data k else none)
      ∧ ∀ k, managedKeys.contains k = true → Dict.lookup body k = none := by
  obtain ⟨body, hbody, hform⟩ := dirtyBody_spec e.dirty e.data hsub
  obtain ⟨kx, hkx, hkxm⟩ := hx
  have hkxd : Dict.contains e.data kx = true := hsub kx hkx
  obtain ⟨vx, hvx⟩ : ∃ v, Dict.lookup e.data kx = some v := by
    unfold Dict.contains at hkxd
    exact Option.isSome_iff_exists.mp hkxd
  have hnmx : kx ∉ managedKeys := by
    simpa using hkxm
  have hbne : body.isEmpty = false := by
    cases hb : body with
    | nil =>
      have := hform kx
      rw [hb] at this
      simp [Dict.lookup, hkx, hkxm, hnmx, hvx] at this
    | cons a l => rfl
  have hde : e.dirty.isEmpty = false := by
    cases hdd : e.dirty with
    | nil => exact absurd hdd hne
    | cons a l => rfl
  refine ⟨body, ?_, hform, fun k hk => ?_⟩
  · unfold BaseEntity.save
    rw [hde]
    simp only [Bool.not_false, Bool.and_true, if_true, hbody, hbne,
      Bool.false_eq_true, if_false, hurn]
    cases asDict (extractResult resp) <;> rfl
  · rw [hform k]
    have hc : ¬ (k ∈ e.dirty ∧ managedKeys.contains k = false) := by
      rintro ⟨-, hf⟩
      rw [hk] at hf
      exact Bool.noConfusion hf
    rw [if_neg hc]

/-- Claim C4 witness: the only-dirty save theorem at an entity whose dirty
set holds `title` and the server-managed `id`. -/
theorem c4_only_dirty_body_excludes_managed_witness :
    (["title", "id"] : List String) ≠ []
    ∧ (∀ k ∈ (["title", "id"] : List String),
        Dict.contains [("urn", J.str "urn:article:one"), ("id", J.str "5"),
          ("title", J.str "New")] k = true)
    ∧ Dict.lookup [("urn", J.str "urn:article:one"), ("id", J.str "5"),
        ("title", J.str "New")] "urn" = some (J.str "urn:article:one")
    ∧ (∃ k, k ∈ (["title", "id"] : List String)
        ∧ managedKeys.contains k = false)
    ∧ ∃ body,
        (BaseEntity.save "articles"
            { data := [("urn", J.str "urn:article:one"), ("id", J.str "5"),
                       ("title", J.str "New")],
              dirty := ["title", "id"], sync := false } true J.null).2
          = [Call.patch ("articles" ++ "/" ++ pyStr (J.str "urn:article:one"))
              body]
        ∧ (∀ k, Dict.lookup body k
            = if k ∈ (["title", "id"] : List String)
                ∧ managedKeys.contains k = false
              then Dict.lookup [("urn", J.str "urn:article:one"),
                ("id", J.str "5"), ("title", J.str "New")] k else none)
        ∧ ∀ k, managedKeys.contains k = true → Dict.lookup body k = none :=
  ⟨by simp, by decide, rfl, ⟨"title", by simp, rfl⟩,
    c4_only_dirty_body_excludes_managed "articles"
      { data := [("urn", J.str "urn:article:one"), ("id", J.str "5"),
                 ("title", J.str "New")],
        dirty := ["title", "id"], sync := false } J.null
      (J.str "urn:article:one") (by simp) (by decide) rfl
      ⟨"title", by simp, rfl⟩⟩

/-- Characterization of `containsColon` as a membership fact. -/
theorem containsColon_eq_false_iff (cs : List Char) :
    containsColon cs = false ↔ ∀ c ∈ cs, c ≠ ':' := by
  induction cs with
  | nil => simp [containsColon]
  | cons c rest ih =>
    unfold containsColon
    rw [Bool.or_eq_false_iff]
    constructor
    · rintro ⟨h1, h2⟩ x hx
      rcases List.mem_cons.mp hx with h | h
      · subst h
        intro hc
        subst hc
        simp at h1
      · exact (ih.mp h2) x h
    · intro hall
      refine ⟨?_, ih.mpr fun x hx => hall x (by simp [hx])⟩
      have := hall c (by simp)
      simp [this]

/-- The segment after the last colon contains no colon. -/
theorem containsColon_afterLastColon (cs : List Char) :
    containsColon (afterLastColon cs) = false := by
  rw [containsColon_eq_false_iff]
  intro c hc
  unfold afterLastColon at hc
  rw [List.mem_reverse] at hc
  have := List.mem_takeWhile_imp hc
  simpa using this

/-- A string starting with a colon-carrying prefix carries a colon itself. -/
theorem containsColon_of_startsWith (s pl : List Char)
    (hsw : strStartsWith s pl = true) (hc : containsColon pl = true) :
    containsColon s = true := by
  induction pl generalizing s with
  | nil => simp [containsColon] at hc
  | cons d ds ih =>
    cases s with
    | nil => simp [strStartsWith] at hsw
    | cons c cs =>
      unfold strStartsWith at hsw
      rw [Bool.and_eq_true] at hsw
      obtain ⟨hcd, hrest⟩ := hsw
      have hcd2 : c = d := by simpa using hcd
      unfold containsColon at hc ⊢
      rw [Bool.or_eq_true] at hc ⊢
      rcases hc with h | h
      · left
        rw [hcd2]
        exact h
      · right
        exact ih cs hrest h

/-- For an empty or colon-carrying prefix, normalization always produces a
colon-free result. -/
theorem containsColon_normalizeUrnL (pl sl : List Char)
    (hp : pl = [] ∨ containsColon pl = true) :
    containsColon (normalizeUrnL pl sl) = false := by
  unfold normalizeUrnL
  by_cases hc : containsColon (lstripSlashes sl) = true
  · rw [if_pos hc]
    exact containsColon_afterLastColon (lstripSlashes sl)
  · rw [if_neg hc]
    have hcf : containsColon (lstripSlashes sl) = false := by
      simpa using hc
    by_cases hcond : pl ≠ [] ∧ strStartsWith (lstripSlashes sl) pl = true
    · rcases hp with h | h
      · exact absurd h hcond.1
      · exact absurd (containsColon_of_startsWith _ _ hcond.2 h)
          (by rw [hcf]; exact Bool.noConfusion)
    · rw [if_neg hcond]
      exact hcf

/-- Normalizing a colon-free, slash-trimmed value under an empty or
colon-carrying prefix is the identity. -/
theorem normalizeUrnL_fixed (pl r : List Char)
    (hp : pl = [] ∨ containsColon pl = true)
    (hnc : containsColon r = false)
    (hls : lstripSlashes r = r) :
    normalizeUrnL pl r = r := by
  unfold normalizeUrnL
  rw [hls]
  show (if containsColon r = true then afterLastColon r
    else if pl ≠ [] ∧ strStartsWith r pl = true
    then List.drop pl.length r else r) = r
  rw [hnc]
  simp only [Bool.false_eq_true, if_false]
  by_cases hcond : pl ≠ [] ∧ strStartsWith r pl = true
  · rcases hp with h | h
    · exact absurd h hcond.1
    · exact absurd (containsColon_of_startsWith _ _ hcond.2 h)
        (by rw [hnc]; exact Bool.noConfusion)
  · rw [if_neg hcond]

/-- Claim C10 (counterexample): with the article prefix, normalizing
`"a:/b"` yields `"/b"`, but normalizing again strips the leading slash and
yields `"b"`, so `normalize_urn` is not idempotent. -/
theorem c10_normalize_urn_not_idempotent :
    normalizeUrn "urn:article:" (normalizeUrn "urn:article:" "a:/b")
      ≠ normalizeUrn "urn:article:" "a:/b" := by
  intro h
  have h1 : normalizeUrn "urn:article:" "a:/b" = "/b" := rfl
  have h2 : normalizeUrn "urn:article:" "/b" = "b" := rfl
  rw [h1, h2] at h
  exact absurd h (by decide)

/-- Claim C10 (amended): for a URN prefix that is empty or contains a colon
— true of every entity type in the repository — `normalize_urn` is
idempotent on every input whose normalized form does not begin with `/`.
(The counterexample's leading-slash case aside, re-normalizing a normalized
identifier returns it unchanged.) -/
theorem c10_normalize_urn_idempotent (pfx s : String)
    (hp : pfx.data = [] ∨ containsColon pfx.data = true)
    (hs : lstripSlashes (normalizeUrnL pfx.data s.data)
      = normalizeUrnL pfx.data s.data) :
    normalizeUrn pfx (normalizeUrn pfx s) = normalizeUrn pfx s := by
  unfold normalizeUrn
  have hdata : (String.mk (normalizeUrnL pfx.data s.data)).data
      = normalizeUrnL pfx.data s.data := rfl
  rw [hdata]
  have hnc := containsColon_normalizeUrnL pfx.data s.data hp
  rw [normalizeUrnL_fixed pfx.data (normalizeUrnL pfx.data s.data) hp hnc hs]

/-- Claim C10 witness: the amended idempotence theorem at the article prefix
and a full URN input. -/
theorem c10_normalize_urn_idempotent_witness :
    (("urn:article:" : String).data = []
      ∨ containsColon ("urn:article:" : String).data = true)
    ∧ lstripSlashes (normalizeUrnL ("urn:article:" : String).data
        ("urn:article:hello" : String).data)
      = normalizeUrnL ("urn:article:" : String).data
        ("urn:article:hello" : String).data
    ∧ normalizeUrn "urn:article:" (normalizeUrn "urn:article:" "urn:article:hello")
      = normalizeUrn "urn:article:" "urn:article:hello" :=
  ⟨Or.inr (by decide), rfl,
    c10_normalize_urn_idempotent "urn:article:" "urn:article:hello"
      (Or.inr (by decide)) rfl⟩

end Wisefood
